import Mathlib

/-!
Shallow embedding of `src/shared/bin/stix_to_zeek_intel.py` (`main`): the
multi-source STIX acquisition / TAXII orchestration pipeline.

Pure Python string/path primitives used by `main` are embedded over
`List Char` so that everything evaluates in the kernel.  Effectful
collaborators (the filesystem, the network, the TAXII client libraries and
the external Converter `stix_zeek_utils.STIXParserZeekPrinter.ProcessSTIX`)
are modelled as an oracle `World` of pure functions returning `Except`:
an `Except.error` models a raised Python exception, and observable actions
(Converter calls, server connections, log warnings) are recorded as `Event`s.
-/

namespace StixToZeekIntel

/-! ### Python string / path primitives -/

/-- Python `s.split(sep)` for a one-character separator: every occurrence of
the separator splits, empty pieces are kept, and `"".split(sep) == [""]`. -/
def pySplitChar (sep : Char) : List Char → List (List Char)
  | [] => [[]]
  | c :: rest =>
    let r := pySplitChar sep rest
    if c = sep then [] :: r
    else
      match r with
      | [] => [[c]]
      | h :: t => (c :: h) :: t

/-- Python `inarg.split(sep)` at the `String` level. -/
def pySplit (sep : Char) (s : String) : List String :=
  (pySplitChar sep s.data).map String.mk

/-- Python `s.lower()`. -/
def pyLower (s : String) : String :=
  String.mk (s.data.map Char.toLower)

/-- Python `s.startswith(pre)`. -/
def pyStartsWith (s pre : String) : Bool :=
  pre.data.isPrefixOf s.data

/-- Python `pat in s` (substring containment), used for the "://" test. -/
def pyContains (pat : List Char) : List Char → Bool
  | [] => pat.isEmpty
  | c :: rest => pat.isPrefixOf (c :: rest) || pyContains pat rest

/-- Python `os.path.basename` (POSIX): everything after the last `'/'`. -/
def os_path_basename (s : String) : String :=
  (pySplit '/' s).getLastD ""

/-- The root part of Python `os.path.splitext` applied to a basename (no
`'/'` handling needed): split at the last `'.'`, except when every character
before that dot is itself a dot (e.g. `".bashrc"` keeps its name). -/
def os_path_splitext_root (s : String) : String :=
  let cs := s.data
  match cs.reverse.findIdx? (fun c => c = '.') with
  | none => s
  | some ridx =>
    let dotIdx := cs.length - 1 - ridx
    if (cs.take dotIdx).any (fun c => c ≠ '.') then String.mk (cs.take dotIdx) else s

/-- Provenance label of a local STIX file (line 157):
`os.path.splitext(os.path.basename(inarg))[0]`. -/
def fileSource (inarg : String) : String :=
  os_path_splitext_root (os_path_basename inarg)

/-! ### Input deduplication (lines 146-148) -/

/-- Lines 147-148:
`seenInput = {}` ;
`args.input = [seenInput.setdefault(x, x) for x in args.input if x not in seenInput]`.
`seen` carries the keys of `seenInput`; the comprehension keeps `x` exactly
when it was not yet a key, inserting it as a key at that moment. -/
def dedupAux (seen : List String) : List String → List String
  | [] => []
  | x :: xs => if x ∈ seen then dedupAux seen xs else x :: dedupAux (x :: seen) xs

/-- The deduplication performed on `args.input`. -/
def pythonDedup (l : List String) : List String :=
  dedupAux [] l

/-- Modelled from the words of the spec (the comparator for the dedup claim):
each distinct string exactly once, in the order of its first occurrence. -/
def firstOccur : List String → List String
  | [] => []
  | x :: xs => x :: firstOccur (xs.filter (fun y => y ≠ x))
termination_by l => l.length
decreasing_by
  simp only [List.length_cons]
  exact Nat.lt_succ_of_le (List.length_filter_le _ _)

/-! ### TAXII connection-string parsing (lines 169-182) -/

/-- The five variables assigned from `taxiiConnInfo` (lines 170-182); all
start out as `None`. The spelling of the source, `Disovery` is kept. -/
structure TaxiiParse where
  taxiiVersion : Option String
  taxiiDisoveryURL : Option String
  taxiiCollectionName : Option String
  taxiiUsername : Option String
  taxiiPassword : Option String
deriving DecidableEq, Repr

/-- Lines 177-182: the first three fields are assigned only when at least
three are present; the fourth and fifth independently when present. -/
def parseTaxiiConnInfo (info : List String) : TaxiiParse where
  taxiiVersion := if 3 ≤ info.length then info.get? 0 else none
  taxiiDisoveryURL := if 3 ≤ info.length then info.get? 1 else none
  taxiiCollectionName := if 3 ≤ info.length then info.get? 2 else none
  taxiiUsername := if 4 ≤ info.length then info.get? 3 else none
  taxiiPassword := if 5 ≤ info.length then info.get? 4 else none

/-- Line 169: `[base64_decode_if_prefixed(x) for x in inarg.split("|")[1::]]`.
`decode` abstracts `stix_zeek_utils.base64_decode_if_prefixed` (defined
outside the source file embedded here). -/
def taxiiConnInfo (decode : String → String) (inarg : String) : List String :=
  ((pySplit '|' inarg).drop 1).map decode

/-- Parse of a full connection-string specifier (lines 169-182). -/
def parseSpec (decode : String → String) (inarg : String) : TaxiiParse :=
  parseTaxiiConnInfo (taxiiConnInfo decode inarg)

/-! ### Collection enumeration and matching (lines 192-202) -/

/-- A TAXII collection as consumed by `main`: `id`, `title`, `url`. -/
structure Collection where
  id : String
  title : String
  url : String
deriving DecidableEq, Repr

/-- The value stored in `collectionUrls` per title (lines 199-202). -/
structure CollInfo where
  id : String
  url : String
deriving DecidableEq, Repr

/-- Line 196-198: `(taxiiCollectionName == "*") or
(collection.title.lower() == taxiiCollectionName.lower())`. -/
def matchesCollection (taxiiCollectionName : String) (c : Collection) : Bool :=
  taxiiCollectionName = "*" || pyLower c.title = pyLower taxiiCollectionName

/-- Python `dict` assignment `d[k] = v`: an existing key keeps its position
and gets the new value; a new key is appended (insertion order). -/
def dictInsert : List (String × CollInfo) → String → CollInfo → List (String × CollInfo)
  | [], k, v => [(k, v)]
  | (k', v') :: rest, k, v =>
    if k' = k then (k', v) :: rest else (k', v') :: dictInsert rest k v

/-- Lines 193-202: walk `server.api_roots`, then the collections of each root, and
store matching collections in `collectionUrls` keyed by title. -/
def collectCollectionUrls (taxiiCollectionName : String)
    (api_roots : List (List Collection)) : List (String × CollInfo) :=
  api_roots.foldl
    (fun acc root =>
      root.foldl
        (fun acc c =>
          if matchesCollection taxiiCollectionName c then
            dictInsert acc c.title ⟨c.id, c.url⟩
          else acc)
        acc)
    []

/-! ### The effectful pipeline (lines 122-235) -/

/-- A retrieved unit handed to the Converter (`zeekPrinter.ProcessSTIX`):
either an opened local file or one TAXII envelope page. -/
inductive StixUnit where
  | file (content : String)
  | envelope (page : String)
deriving DecidableEq, Repr

/-- Observable actions of `main`, in execution order:
Converter calls with their `source` label, TAXII server connections, and
`logging.warning` calls. -/
inductive Event where
  | convert (u : StixUnit) (source : String)
  | connect (version url : String) (user pass : Option String)
  | warn (msg : String)
deriving DecidableEq, Repr

/-- What a successful `TaxiiServer_v20/v21` session exposes to `main`:
`server.title` (may be null) and `server.api_roots`, each root bearing its
collections. -/
structure Server where
  title : Option String
  api_roots : List (List Collection)

/-- Oracle for the effectful collaborators of `main`.  Every `Except.error`
stands for a raised Python exception, rendered as the string
`f"\x7btype(e).__name__\x7d ...: \x7be\x7d"` would render it.
* `connectServer` covers the `TaxiiServer_*` constructor together with the
  lazy `server.title` / `server.api_roots` network accesses (lines 185-195):
  a failure anywhere there escapes to the per-specifier handler.
* `getPages` covers `TaxiiCollection_*` plus the paginated
  `TaxiiAsPages_*(collection.get_objects, ...)` iteration (lines 206-226):
  it yields the envelope pages obtained before an optional exception.
* `convertResult` is the outcome of one `ProcessSTIX` call: `none` on
  success, `some e` when the Converter raises `e`. -/
structure World where
  isFile : String → Bool
  openFile : String → Except String String
  readLines : String → Except String (List String)
  download : String → Except String (Option (List String))
  decode : String → String
  connectServer : (version url : String) → (user pass : Option String) → Except String Server
  getPages : (version url : String) → (user pass : Option String) → List String × Option String
  convertResult : StixUnit → String → Option String

/-- Line 228: `":".join([x for x in [server.title, title] if x is not None])`. -/
def provJoin (serverTitle collectionTitle : Option String) : String :=
  String.intercalate ":" ([serverTitle, collectionTitle].filterMap id)

/-- Line 190: `raise Exception(f"Unsupported TAXII version ...")`, with
the Python rendering of `None`. -/
def unsupportedVersionMsg (v : Option String) : String :=
  "Unsupported TAXII version \x22" ++ (match v with | none => "None" | some s => s) ++ "\x22"

/-- Line 232 warning, keyed by the collection title. -/
def collectionWarnMsg (title e : String) : String :=
  e ++ " for object of collection \x27" ++ title ++ "\x27"

/-- Line 235 warning (the per-specifier handler). -/
def specWarnMsg (inarg e : String) : String :=
  e ++ " for \x27" ++ inarg ++ "\x27"

/-- Line 144 warning (the per-list-file-reference handler). -/
def refWarnMsg (ref e : String) : String :=
  e ++ " for \x27" ++ ref ++ "\x27"

/-- Lines 227-229 inside the pagination loop: call `ProcessSTIX` on each
envelope in order; a Converter exception stops the loop (it is raised inside
the `try` of line 211).  Returns the Converter calls made and the escaped
exception, if any. -/
def convertEnvelopes (w : World) (source : String) :
    List String → List Event × Option String
  | [] => ([], none)
  | e :: rest =>
    let ev := Event.convert (StixUnit.envelope e) source
    match w.convertResult (StixUnit.envelope e) source with
    | some err => ([ev], some err)
    | none =>
      let r := convertEnvelopes w source rest
      (ev :: r.1, r.2)

/-- Lines 205-232, body for one entry of `collectionUrls`: open the
version-selected collection, page through it converting each envelope, and
catch any exception of the paging/conversion loop in the inner handler
(lines 231-232).  No exception escapes this function. -/
def processCollection (w : World) (ver : String) (user pass : Option String)
    (serverTitle : Option String) (title : String) (info : CollInfo) : List Event :=
  let pages := w.getPages ver info.url user pass
  let src := provJoin serverTitle (some title)
  let conv := convertEnvelopes w src pages.1
  match conv.2 with
  | some e => conv.1 ++ [Event.warn (collectionWarnMsg title e)]
  | none =>
    match pages.2 with
    | some e => conv.1 ++ [Event.warn (collectionWarnMsg title e)]
    | none => conv.1

/-- Line 205: `for title, info in collectionUrls.items():` (insertion order). -/
def processCollections (w : World) (ver : String) (user pass : Option String)
    (serverTitle : Option String) (colls : List (String × CollInfo)) : List Event :=
  colls.flatMap (fun kv => processCollection w ver user pass serverTitle kv.1 kv.2)

/-- Lines 184-232 for one supported version token `ver` (`"2.0"` or
`"2.1"`): connect to the server, enumerate and match collections, then
retrieve each matched collection. -/
def runTaxii (w : World) (ver : String) (p : TaxiiParse) : List Event × Option String :=
  -- reaching here implies the first three fields were present, so the
  -- `getD` defaults are never used
  let url := p.taxiiDisoveryURL.getD ""
  let connEv := Event.connect ver url p.taxiiUsername p.taxiiPassword
  match w.connectServer ver url p.taxiiUsername p.taxiiPassword with
  | Except.error e => ([connEv], some e)
  | Except.ok server =>
    let collectionUrls := collectCollectionUrls (p.taxiiCollectionName.getD "") server.api_roots
    (connEv :: processCollections w ver p.taxiiUsername p.taxiiPassword server.title collectionUrls,
      none)

/-- Lines 154-232, the `try` body for one specifier `inarg`:
* an existing local file is opened and handed to the Converter with the
  filename stem as `source` (lines 154-157);
* else a specifier starting (case-insensitively) with `taxii` is parsed and
  the version-selected TAXII flow runs (lines 159-232), an unsupported or
  missing version raising (line 190);
* else nothing happens — there is no fallback branch in the source.
Returns the events performed and the exception escaping to the
per-specifier handler, if any. -/
def processSpecifier (w : World) (inarg : String) : List Event × Option String :=
  if w.isFile inarg then
    match w.openFile inarg with
    | Except.error e => ([], some e)
    | Except.ok content =>
      let src := fileSource inarg
      let ev := Event.convert (StixUnit.file content) src
      match w.convertResult (StixUnit.file content) src with
      | some err => ([ev], some err)
      | none => ([ev], none)
  else if pyStartsWith (pyLower inarg) "taxii" then
    let p := parseSpec w.decode inarg
    if p.taxiiVersion = some "2.0" then runTaxii w "2.0" p
    else if p.taxiiVersion = some "2.1" then runTaxii w "2.1" p
    else ([], some (unsupportedVersionMsg p.taxiiVersion))
  else
    ([], none)

/-- Lines 152-235: one loop iteration with its `except Exception` handler —
an escaped exception becomes a warning and the loop continues. -/
def processSpecifierCaught (w : World) (inarg : String) : List Event :=
  let r := processSpecifier w inarg
  match r.2 with
  | some e => r.1 ++ [Event.warn (specWarnMsg inarg e)]
  | none => r.1

/-- Lines 152-235: `for inarg in args.input:` over the resolved list. -/
def processAll (w : World) (inputs : List String) : List Event :=
  inputs.flatMap (processSpecifierCaught w)

/-- Lines 123-144, the `try` body for one `--input-file` reference: a local
file is read line-by-line; a reference containing "://" is downloaded and
read (a failed download yielding no lines silently); anything else logs the
not-found warning of line 142.  The per-reference handler (lines 143-144)
turns an exception into a warning. -/
def processListFile (w : World) (ref : String) : List Event × List String :=
  if w.isFile ref then
    match w.readLines ref with
    | Except.ok ls => ([], ls)
    | Except.error e => ([Event.warn (refWarnMsg ref e)], [])
  else if pyContains "://".data ref.data then
    match w.download ref with
    | Except.ok (some ls) => ([], ls)
    | Except.ok none => ([], [])
    | Except.error e => ([Event.warn (refWarnMsg ref e)], [])
  else
    ([Event.warn ("File \x27" ++ ref ++ "\x27 not found")], [])

/-- Lines 115-149: `None` handling of `args.input` (lines 115-116), the
`--input-file` loop (line 122: `for infileArg in args.inputFile:` — iterating
`None` raises `TypeError`, which nothing catches, so the run dies), and
deduplication (lines 146-148).  Returns the warnings emitted and the
resolved input list, or the fatal exception. -/
def resolveInputs (w : World) (input inputFile : Option (List String)) :
    Except String (List Event × List String) :=
  let input0 := input.getD []
  match inputFile with
  | none => Except.error "TypeError: \x27NoneType\x27 object is not iterable"
  | some refs =>
    let step := refs.foldl
      (fun (acc : List Event × List String) ref =>
        let r := processListFile w ref
        (acc.1 ++ r.1, acc.2 ++ r.2))
      ([], [])
    Except.ok (step.1, pythonDedup (input0 ++ step.2))

/-- Lines 115-235: resolve the inputs, then process each resolved specifier.
The result is the full event trace, or the fatal exception that killed the
run. -/
def mainRun (w : World) (input inputFile : Option (List String)) :
    Except String (List Event) :=
  match resolveInputs w input inputFile with
  | Except.error e => Except.error e
  | Except.ok r => Except.ok (r.1 ++ processAll w r.2)

/-! ### Concrete worlds used by the witnesses -/

/-- A world of three local STIX files where opening `b.json` raises. -/
def wFiles : World where
  isFile := fun s => s = "a.json" || s = "b.json" || s = "c.json" || s = "dir/file.tar.json"
  openFile := fun s =>
    if s = "b.json" then Except.error "OSError"
    else if s = "a.json" then Except.ok "A"
    else if s = "c.json" then Except.ok "C"
    else Except.ok "X"
  readLines := fun _ => Except.ok []
  download := fun _ => Except.ok none
  decode := id
  connectServer := fun _ _ _ _ => Except.error "ConnectionError"
  getPages := fun _ _ _ _ => ([], none)
  convertResult := fun _ _ => none

/-- A world with no local files and one TAXII server holding two
collections, where paging the first collection raises mid-iteration. -/
def wNet : World where
  isFile := fun _ => false
  openFile := fun _ => Except.error "FileNotFoundError"
  readLines := fun _ => Except.ok []
  download := fun _ => Except.ok none
  decode := id
  connectServer := fun _ _ _ _ =>
    Except.ok ⟨some "SRV", [[⟨"1", "T1", "u1"⟩, ⟨"2", "T2", "u2"⟩]]⟩
  getPages := fun _ url _ _ =>
    if url = "u1" then (["p1"], some "HTTPError") else (["p2"], none)
  convertResult := fun _ _ => none

/-- Two API roots whose collections both carry the title `"B"`, to exhibit
last-wins keying. -/
def roots0 : List (List Collection) :=
  [[⟨"1", "B", "u1"⟩, ⟨"2", "x", "u2"⟩], [⟨"3", "B", "u3"⟩]]

/-! ### Helper lemmas -/

/-- `dedupAux` computes the first-occurrence list of the elements not yet
seen. -/
theorem dedupAux_eq_firstOccur (l : List String) :
    ∀ seen, dedupAux seen l = firstOccur (l.filter (fun y => decide (y ∉ seen))) := by
  induction l with
  | nil => intro seen; simp [dedupAux, firstOccur]
  | cons x xs ih =>
    intro seen
    by_cases hx : x ∈ seen
    · rw [dedupAux, if_pos hx, List.filter_cons_of_neg (by simp [hx]), ih seen]
    · rw [dedupAux, if_neg hx, List.filter_cons_of_pos (by simp [hx])]
      simp only [firstOccur]
      refine congrArg (x :: ·) ?_
      rw [ih (x :: seen), List.filter_filter]
      refine congrArg firstOccur (List.filter_congr ?_)
      intro y _
      by_cases hyx : y = x
      · subst hyx; simp
      · by_cases hys : y ∈ seen <;> simp [hyx, hys]

/-- Elements produced by `dedupAux` were not previously seen. -/
theorem dedupAux_not_seen (l : List String) :
    ∀ seen y, y ∈ dedupAux seen l → y ∉ seen := by
  induction l with
  | nil => intro seen y h; simp [dedupAux] at h
  | cons x xs ih =>
    intro seen y h
    by_cases hx : x ∈ seen
    · rw [dedupAux, if_pos hx] at h
      exact ih seen y h
    · rw [dedupAux, if_neg hx] at h
      rcases List.mem_cons.mp h with h | h
      · subst h; exact hx
      · exact fun hy => ih (x :: seen) y h (List.mem_cons_of_mem x hy)

/-- `dedupAux` never emits a duplicate. -/
theorem dedupAux_nodup (l : List String) : ∀ seen, (dedupAux seen l).Nodup := by
  induction l with
  | nil => intro seen; simp [dedupAux]
  | cons x xs ih =>
    intro seen
    by_cases hx : x ∈ seen
    · rw [dedupAux, if_pos hx]; exact ih seen
    · rw [dedupAux, if_neg hx]
      refine List.nodup_cons.mpr ⟨?_, ih (x :: seen)⟩
      intro hmem
      exact dedupAux_not_seen xs (x :: seen) x hmem (List.mem_cons_self x seen)

/-- `List.lookup` on a cons, with propositional comparison. -/
theorem lookup_cons_eq (k k1 : String) (v1 : CollInfo) (rest : List (String × CollInfo)) :
    List.lookup k ((k1, v1) :: rest) = if k = k1 then some v1 else List.lookup k rest := by
  by_cases h : k = k1
  · subst h; simp [List.lookup]
  · simp [List.lookup, h, beq_eq_false_iff_ne.mpr h]

/-- Looking a key up after a `dict` assignment sees the new value at that
key and is otherwise unchanged. -/
theorem lookup_dictInsert (d : List (String × CollInfo)) (k t : String) (v : CollInfo) :
    List.lookup k (dictInsert d t v) = if k = t then some v else List.lookup k d := by
  induction d with
  | nil =>
    rw [dictInsert, lookup_cons_eq]
  | cons kv rest ih =>
    obtain ⟨k1, v1⟩ := kv
    by_cases h1 : k1 = t
    · subst h1
      rw [dictInsert, if_pos rfl, lookup_cons_eq, lookup_cons_eq]
      by_cases h : k = k1 <;> simp [h]
    · rw [dictInsert, if_neg h1, lookup_cons_eq, lookup_cons_eq, ih]
      by_cases h : k = k1
      · subst h
        rw [if_pos rfl, if_pos rfl, if_neg h1]
      · rw [if_neg h, if_neg h]

/-- `dict` assignment keeps the keys, appending the new key if absent. -/
theorem keys_dictInsert (d : List (String × CollInfo)) (t : String) (v : CollInfo) :
    (dictInsert d t v).map Prod.fst =
      if t ∈ d.map Prod.fst then d.map Prod.fst else d.map Prod.fst ++ [t] := by
  induction d with
  | nil => simp [dictInsert]
  | cons kv rest ih =>
    obtain ⟨k1, v1⟩ := kv
    by_cases h1 : k1 = t
    · subst h1; simp [dictInsert]
    · rw [dictInsert, if_neg h1]
      by_cases ht : t ∈ rest.map Prod.fst <;>
        simp [ih, ht, List.mem_cons, Ne.symm h1]

/-- `dict` assignment preserves key uniqueness. -/
theorem nodup_keys_dictInsert (d : List (String × CollInfo)) (t : String) (v : CollInfo)
    (h : (d.map Prod.fst).Nodup) : ((dictInsert d t v).map Prod.fst).Nodup := by
  rw [keys_dictInsert]
  by_cases ht : t ∈ d.map Prod.fst
  · rwa [if_pos ht]
  · rw [if_neg ht]
    simp [List.nodup_append, h, ht]

/-- The collection-matching fold step of lines 195-202. -/
def collectStep (taxiiCollectionName : String) (acc : List (String × CollInfo))
    (c : Collection) : List (String × CollInfo) :=
  if matchesCollection taxiiCollectionName c then dictInsert acc c.title ⟨c.id, c.url⟩ else acc

/-- The double fold over API roots is the fold over all their collections in
enumeration order. -/
theorem collectCollectionUrls_eq_foldl (name : String) (roots : List (List Collection)) :
    collectCollectionUrls name roots = roots.flatten.foldl (collectStep name) [] := by
  rw [collectCollectionUrls, List.foldl_flatten]
  rfl

/-- `getLast?` of a cons, expressed through `Option.or`. -/
theorem getLast?_cons_or {α : Type} (c : α) (L : List α) :
    (c :: L).getLast? = L.getLast?.or (some c) := by
  cases L with
  | nil => rfl
  | cons a l =>
    rw [List.getLast?_cons_cons]
    cases h : (a :: l).getLast? with
    | none => simp at h
    | some z => rfl

/-- `Option.map` distributes over `Option.or`. -/
theorem map_or {α β : Type} (f : α → β) (a b : Option α) :
    (a.or b).map f = (a.map f).or (b.map f) := by
  cases a <;> rfl

/-- Looking up a title after folding a collection list: the last matching
collection bearing that exact title wins, falling back to the accumulator. -/
theorem lookup_collect_foldl (name : String) (cs : List Collection) :
    ∀ (acc : List (String × CollInfo)) (k : String),
      List.lookup k (cs.foldl (collectStep name) acc) =
        (((cs.filter (fun c => matchesCollection name c)).filter
            (fun c => c.title = k)).getLast?.map (fun c => CollInfo.mk c.id c.url)).or
          (List.lookup k acc) := by
  induction cs with
  | nil => intro acc k; simp
  | cons c cs ih =>
    intro acc k
    rw [List.foldl_cons]
    by_cases hm : matchesCollection name c
    · rw [show collectStep name acc c = dictInsert acc c.title ⟨c.id, c.url⟩ from
        if_pos hm, List.filter_cons_of_pos (by simpa using hm)]
      by_cases hk : c.title = k
      · rw [List.filter_cons_of_pos (by simpa using hk), ih, lookup_dictInsert,
          if_pos hk.symm, getLast?_cons_or, map_or, Option.or_assoc]
        rfl
      · rw [List.filter_cons_of_neg (by simpa using hk), ih, lookup_dictInsert,
          if_neg (fun h => hk h.symm)]
    · rw [show collectStep name acc c = acc from if_neg hm,
        List.filter_cons_of_neg (by simpa using hm), ih]

/-- The fold of lines 195-202 keeps its keys duplicate-free. -/
theorem nodup_keys_collect_foldl (name : String) (cs : List Collection) :
    ∀ (acc : List (String × CollInfo)), (acc.map Prod.fst).Nodup →
      ((cs.foldl (collectStep name) acc).map Prod.fst).Nodup := by
  induction cs with
  | nil => intro acc h; exact h
  | cons c cs ih =>
    intro acc h
    rw [List.foldl_cons]
    refine ih _ ?_
    rw [collectStep]
    by_cases hm : matchesCollection name c
    · rw [if_pos hm]; exact nodup_keys_dictInsert acc c.title ⟨c.id, c.url⟩ h
    · rwa [if_neg hm]

/-- Every Converter call made by the pagination loop carries the provenance
label it was started with. -/
theorem convertEnvelopes_sources (w : World) (src : String) :
    ∀ (pages : List String) (ev : Event), ev ∈ (convertEnvelopes w src pages).1 →
      ∃ page, ev = Event.convert (StixUnit.envelope page) src := by
  intro pages
  induction pages with
  | nil => intro ev h; simp [convertEnvelopes] at h
  | cons e rest ih =>
    intro ev h
    rw [convertEnvelopes] at h
    cases hc : w.convertResult (StixUnit.envelope e) src with
    | some err =>
      rw [hc] at h
      simp at h
      exact ⟨e, h⟩
    | none =>
      rw [hc] at h
      simp at h
      rcases h with h | h
      · exact ⟨e, h⟩
      · exact ih ev h

/-! ### Claim theorems -/

/-- C3: for every list of input specifier strings, the resolved list (lines
146-148) contains each distinct string exactly once, in the order of its
first occurrence; e.g. `["a.json", "a.json", "b.json"]` resolves to
`["a.json", "b.json"]`. -/
theorem stix_c3_dedup_first_occurrence (l : List String) :
    pythonDedup l = firstOccur l ∧ (pythonDedup l).Nodup ∧
      pythonDedup ["a.json", "a.json", "b.json"] = ["a.json", "b.json"] := by
  refine ⟨?_, dedupAux_nodup l [], by decide⟩
  rw [pythonDedup, dedupAux_eq_firstOccur l []]
  refine congrArg firstOccur ?_
  have hp : (fun y : String => decide (y ∉ ([] : List String))) = fun _ => true := by
    funext y; simp
  rw [hp, List.filter_true]

/-- C4: splitting a connection string on the pipe character and decoding
each field, exactly four fields (protocol, version, discoveryURL,
collectionName) parse with username and password absent; a fifth field
populates the username and a sixth the password, in that order. -/
theorem stix_c4_connection_string_fields :
    (∀ v d c : String, parseTaxiiConnInfo [v, d, c] =
        ⟨some v, some d, some c, none, none⟩) ∧
    (∀ v d c u : String, parseTaxiiConnInfo [v, d, c, u] =
        ⟨some v, some d, some c, some u, none⟩) ∧
    (∀ v d c u pw : String, parseTaxiiConnInfo [v, d, c, u, pw] =
        ⟨some v, some d, some c, some u, some pw⟩) ∧
    taxiiConnInfo id "taxii|2.0|https://x/disc|Coll" = ["2.0", "https://x/disc", "Coll"] ∧
    parseSpec id "taxii|2.0|https://x/disc|Coll" =
      ⟨some "2.0", some "https://x/disc", some "Coll", none, none⟩ :=
  ⟨fun _ _ _ => rfl, fun _ _ _ _ => rfl, fun _ _ _ _ _ => rfl, by decide, by decide⟩

/-- C2 (code bug evidence): whenever the `--input-file` flag is omitted
(`args.inputFile = None`), line 122 iterates `None` and the run dies with an
uncaught `TypeError` before deduplication; with an empty reference list the
run would proceed to deduplicate and process the direct `--input`
specifiers. -/
theorem stix_c2_missing_input_file_is_fatal (w : World) (input : Option (List String)) :
    mainRun w input none =
      Except.error "TypeError: \x27NoneType\x27 object is not iterable" ∧
    mainRun w input (some []) =
      Except.ok (processAll w (pythonDedup (input.getD []))) := by
  refine ⟨rfl, ?_⟩
  simp [mainRun, resolveInputs]

/-- C1: for every batch of resolved specifiers, one specifier whose
processing raises is caught at specifier granularity (line 234-235): its
exception becomes a warning and every specifier before and after it is
processed in full and its units handed to the Converter. -/
theorem stix_c1_per_specifier_isolation (w : World) (pre post : List String) (b e : String)
    (h : (processSpecifier w b).2 = some e) :
    processAll w (pre ++ b :: post) =
      processAll w pre ++
        ((processSpecifier w b).1 ++ [Event.warn (specWarnMsg b e)]) ++
        processAll w post := by
  have hb : processSpecifierCaught w b =
      (processSpecifier w b).1 ++ [Event.warn (specWarnMsg b e)] := by
    rw [processSpecifierCaught, h]
  simp only [processAll, List.flatMap_append, List.flatMap_cons, hb, List.append_assoc]

/-- C1 witness: in a three-file batch where opening `b.json` raises
`OSError`, `a.json` and `c.json` are both still converted. -/
theorem stix_c1_witness :
    processAll wFiles ["a.json", "b.json", "c.json"] =
      processAll wFiles ["a.json"] ++
        ((processSpecifier wFiles "b.json").1 ++
          [Event.warn (specWarnMsg "b.json" "OSError")]) ++
        processAll wFiles ["c.json"] ∧
    processAll wFiles ["a.json"] = [Event.convert (StixUnit.file "A") "a"] ∧
    processAll wFiles ["c.json"] = [Event.convert (StixUnit.file "C") "c"] :=
  ⟨stix_c1_per_specifier_isolation wFiles ["a.json"] ["c.json"] "b.json" "OSError" (by decide),
   by decide, by decide⟩

/-- C5: the enumerate-and-match step produces exactly the collections whose
title equals the requested name case-insensitively (all of them for `"*"`),
keyed by exact title with the later of two same-titled matches winning. -/
theorem stix_c5_collection_matching (name : String) (roots : List (List Collection))
    (k : String) :
    List.lookup k (collectCollectionUrls name roots) =
      ((roots.flatten.filter (fun c => matchesCollection name c)).filter
          (fun c => c.title = k)).getLast?.map (fun c => CollInfo.mk c.id c.url) ∧
    ((collectCollectionUrls name roots).map Prod.fst).Nodup ∧
    (∀ c : Collection, matchesCollection name c = true ↔
        name = "*" ∨ pyLower c.title = pyLower name) ∧
    (name = "*" → ∀ c ∈ roots.flatten, matchesCollection name c = true) := by
  refine ⟨?_, ?_, ?_, ?_⟩
  · rw [collectCollectionUrls_eq_foldl, lookup_collect_foldl name roots.flatten]
    simp [List.lookup]
  · rw [collectCollectionUrls_eq_foldl]
    exact nodup_keys_collect_foldl name roots.flatten [] (by simp)
  · intro c
    rw [matchesCollection]
    simp
  · intro h c _
    rw [matchesCollection, h]
    simp

/-- C5 witness: with two API roots both holding a collection titled `"B"`,
requesting `"b"` matches case-insensitively and the later collection wins
the key; the wildcard matches a title-distinct collection too. -/
theorem stix_c5_witness :
    List.lookup "B" (collectCollectionUrls "b" roots0) = some ⟨"3", "u3"⟩ ∧
    matchesCollection "*" ⟨"2", "x", "u2"⟩ = true :=
  ⟨Eq.trans (stix_c5_collection_matching "b" roots0 "B").1 (by decide),
   (stix_c5_collection_matching "*" roots0 "B").2.2.2 rfl ⟨"2", "x", "u2"⟩ (by decide)⟩

/-- C6: a connection-string specifier whose version token is neither
`"2.0"` nor `"2.1"` raises (line 190) before any server connection; the
per-specifier handler logs it and the rest of the batch continues. -/
theorem stix_c6_unsupported_version (w : World) (inarg : String) (rest : List String)
    (h1 : w.isFile inarg = false)
    (h2 : pyStartsWith (pyLower inarg) "taxii" = true)
    (h3 : (parseSpec w.decode inarg).taxiiVersion ≠ some "2.0")
    (h4 : (parseSpec w.decode inarg).taxiiVersion ≠ some "2.1") :
    processSpecifier w inarg =
      ([], some (unsupportedVersionMsg (parseSpec w.decode inarg).taxiiVersion)) ∧
    processAll w (inarg :: rest) =
      Event.warn (specWarnMsg inarg
          (unsupportedVersionMsg (parseSpec w.decode inarg).taxiiVersion)) ::
        processAll w rest := by
  have hmain : processSpecifier w inarg =
      ([], some (unsupportedVersionMsg (parseSpec w.decode inarg).taxiiVersion)) := by
    simp [processSpecifier, h1, h2, h3, h4]
  refine ⟨hmain, ?_⟩
  rw [processAll, List.flatMap_cons,
    show processSpecifierCaught w inarg =
        [Event.warn (specWarnMsg inarg
          (unsupportedVersionMsg (parseSpec w.decode inarg).taxiiVersion))] from by
      simp [processSpecifierCaught, hmain]]
  rfl

/-- C6 witness: version token `"3.0"` is rejected with no connection event
and the batch would continue. -/
theorem stix_c6_witness :
    processSpecifier wNet "taxii|3.0|url|coll" =
      ([], some (unsupportedVersionMsg
        (parseSpec wNet.decode "taxii|3.0|url|coll").taxiiVersion)) ∧
    processAll wNet ["taxii|3.0|url|coll"] =
      Event.warn (specWarnMsg "taxii|3.0|url|coll"
          (unsupportedVersionMsg (parseSpec wNet.decode "taxii|3.0|url|coll").taxiiVersion)) ::
        processAll wNet [] :=
  stix_c6_unsupported_version wNet "taxii|3.0|url|coll" []
    (by decide) (by decide) (by decide) (by decide)

/-- C10: a specifier starting with the protocol marker but carrying fewer
than three pipe-delimited fields after it keeps `taxiiVersion = None`
(lines 170-178) and is rejected through the same unsupported-version raise
(line 190), caught and logged by the per-specifier handler. -/
theorem stix_c10_short_connection_string (w : World) (inarg : String) (rest : List String)
    (h1 : w.isFile inarg = false)
    (h2 : pyStartsWith (pyLower inarg) "taxii" = true)
    (h3 : ((pySplit '|' inarg).drop 1).length < 3) :
    (parseSpec w.decode inarg).taxiiVersion = none ∧
    processSpecifier w inarg = ([], some (unsupportedVersionMsg none)) ∧
    processAll w (inarg :: rest) =
      Event.warn (specWarnMsg inarg (unsupportedVersionMsg none)) :: processAll w rest := by
  have hlen : ¬3 ≤ (taxiiConnInfo w.decode inarg).length := by
    rw [taxiiConnInfo, List.length_map]
    exact Nat.not_le.mpr h3
  have hv : (parseSpec w.decode inarg).taxiiVersion = none := by
    simp [parseSpec, parseTaxiiConnInfo, hlen]
  have h3' : (parseSpec w.decode inarg).taxiiVersion ≠ some "2.0" := by rw [hv]; simp
  have h4' : (parseSpec w.decode inarg).taxiiVersion ≠ some "2.1" := by rw [hv]; simp
  have hmain : processSpecifier w inarg = ([], some (unsupportedVersionMsg none)) := by
    rw [show ([], some (unsupportedVersionMsg none)) =
        (([] : List Event), some (unsupportedVersionMsg (parseSpec w.decode inarg).taxiiVersion))
      from by rw [hv]]
    simp [processSpecifier, h1, h2, h3', h4']
  refine ⟨hv, hmain, ?_⟩
  rw [processAll, List.flatMap_cons,
    show processSpecifierCaught w inarg =
        [Event.warn (specWarnMsg inarg (unsupportedVersionMsg none))] from by
      simp [processSpecifierCaught, hmain]]
  rfl

/-- C10 witness: `"taxii|2.0"` has one field after the marker, parses to a
`None` version and is rejected through the unsupported-version path while
the rest of the batch continues. -/
theorem stix_c10_witness :
    (parseSpec wNet.decode "taxii|2.0").taxiiVersion = none ∧
    processSpecifier wNet "taxii|2.0" = ([], some (unsupportedVersionMsg none)) ∧
    processAll wNet ["taxii|2.0", "bogus-two"] =
      Event.warn (specWarnMsg "taxii|2.0" (unsupportedVersionMsg none)) ::
        processAll wNet ["bogus-two"] :=
  stix_c10_short_connection_string wNet "taxii|2.0" ["bogus-two"]
    (by decide) (by decide) (by decide)

/-- C9 counterexample: an unrecognized specifier (no local file, no
protocol marker) is skipped without aborting the batch, but no warning at
all is logged for it — the claimed warning does not exist, because the
lines 154-159 `if`/`elif` has no `else` branch. -/
theorem stix_c9_counterexample :
    wNet.isFile "bogus-specifier" = false ∧
    pyStartsWith (pyLower "bogus-specifier") "taxii" = false ∧
    processAll wNet ["bogus-specifier", "taxii|2.1|U|*"] =
      processAll wNet ["taxii|2.1|U|*"] ∧
    ∀ m : String, Event.warn m ∉ processAll wNet ["bogus-specifier"] := by
  refine ⟨by decide, by decide, by decide, ?_⟩
  intro m
  rw [show processAll wNet ["bogus-specifier"] = [] from by decide]
  exact List.not_mem_nil _

/-- C9 (amended): a specifier that is neither an existing local file nor
begins case-insensitively with `taxii` is skipped silently — no events, no
exception — and the batch continues with the remaining specifiers. -/
theorem stix_c9_amended_silent_skip (w : World) (inarg : String) (rest : List String)
    (h1 : w.isFile inarg = false)
    (h2 : pyStartsWith (pyLower inarg) "taxii" = false) :
    processSpecifier w inarg = ([], none) ∧
    processAll w (inarg :: rest) = processAll w rest := by
  have hmain : processSpecifier w inarg = ([], none) := by
    simp [processSpecifier, h1, h2]
  refine ⟨hmain, ?_⟩
  rw [processAll, List.flatMap_cons,
    show processSpecifierCaught w inarg = [] from by rw [processSpecifierCaught, hmain]]
  rfl

/-- C9 amended witness: the unrecognized specifier contributes nothing and
the following TAXII specifier is processed as if it were first. -/
theorem stix_c9_amended_witness :
    processSpecifier wNet "bogus-specifier" = ([], none) ∧
    processAll wNet ["bogus-specifier", "taxii|2.1|U|*"] =
      processAll wNet ["taxii|2.1|U|*"] :=
  stix_c9_amended_silent_skip wNet "bogus-specifier" ["taxii|2.1|U|*"]
    (by decide) (by decide)

/-- C7: an exception while paging one matched collection is caught inside
the per-collection loop (lines 231-232) — its trace ends in a warning
rather than propagating — and every other matched collection of the same
server, before it and after it, is still processed. -/
theorem stix_c7_per_collection_isolation (w : World) (ver : String) (user pass : Option String)
    (st : Option String) (pre post : List (String × CollInfo)) (t : String) (i : CollInfo)
    (e : String) (h : (w.getPages ver i.url user pass).2 = some e) :
    (∃ e2, processCollection w ver user pass st t i =
        (convertEnvelopes w (provJoin st (some t)) (w.getPages ver i.url user pass).1).1 ++
          [Event.warn (collectionWarnMsg t e2)]) ∧
    processCollections w ver user pass st (pre ++ (t, i) :: post) =
      processCollections w ver user pass st pre ++
        processCollection w ver user pass st t i ++
        processCollections w ver user pass st post := by
  constructor
  · cases hc : (convertEnvelopes w (provJoin st (some t))
        (w.getPages ver i.url user pass).1).2 with
    | some e2 =>
      refine ⟨e2, ?_⟩
      simp only [processCollection, hc]
    | none =>
      refine ⟨e, ?_⟩
      simp only [processCollection, hc, h]
  · simp [processCollections, List.flatMap_append, List.flatMap_cons, List.append_assoc]

/-- C7 witness: paging collection `T1` raises `HTTPError` mid-iteration;
the warning is logged for `T1` and sibling `T2` is still retrieved. -/
theorem stix_c7_witness :
    (∃ e2, processCollection wNet "2.1" none none (some "SRV") "T1" ⟨"1", "u1"⟩ =
        (convertEnvelopes wNet (provJoin (some "SRV") (some "T1"))
            (wNet.getPages "2.1" "u1" none none).1).1 ++
          [Event.warn (collectionWarnMsg "T1" e2)]) ∧
    processCollections wNet "2.1" none none (some "SRV")
        [("T1", ⟨"1", "u1"⟩), ("T2", ⟨"2", "u2"⟩)] =
      processCollections wNet "2.1" none none (some "SRV") [] ++
        processCollection wNet "2.1" none none (some "SRV") "T1" ⟨"1", "u1"⟩ ++
        processCollections wNet "2.1" none none (some "SRV") [("T2", ⟨"2", "u2"⟩)] :=
  stix_c7_per_collection_isolation wNet "2.1" none none (some "SRV")
    [] [("T2", ⟨"2", "u2"⟩)] "T1" ⟨"1", "u1"⟩ "HTTPError" (by decide)

/-- C8: the provenance label handed to the Converter is the basename stem
for a local file (line 157) and `server_title:collection_title` joined by
`":"` with a null half omitted, no dangling separator, for an envelope
(line 228). -/
theorem stix_c8_provenance_labels :
    (∀ (w : World) (inarg content : String), w.isFile inarg = true →
        w.openFile inarg = Except.ok content →
        (processSpecifier w inarg).1.head? =
          some (Event.convert (StixUnit.file content)
            (os_path_splitext_root (os_path_basename inarg)))) ∧
    (∀ (w : World) (ver : String) (user pass : Option String) (st : Option String)
        (t : String) (i : CollInfo) (u : StixUnit) (s : String),
        Event.convert u s ∈ processCollection w ver user pass st t i →
          s = provJoin st (some t)) ∧
    (∀ s t : String, provJoin (some s) (some t) = s ++ ":" ++ t ∧
        provJoin none (some t) = t ∧ provJoin (some s) none = s ∧
        provJoin none none = "") := by
  refine ⟨?_, ?_, fun s t => ⟨rfl, rfl, rfl, rfl⟩⟩
  · intro w inarg content h1 h2
    rw [processSpecifier, if_pos h1, h2]
    show (match w.convertResult (StixUnit.file content) (fileSource inarg) with
      | some err => ([Event.convert (StixUnit.file content) (fileSource inarg)], some err)
      | none => ([Event.convert (StixUnit.file content) (fileSource inarg)],
          (none : Option String))).1.head? =
      some (Event.convert (StixUnit.file content) (os_path_splitext_root (os_path_basename inarg)))
    cases w.convertResult (StixUnit.file content) (fileSource inarg) <;> rfl
  · intro w ver user pass st t i u s hmem
    have hsrc : ∀ ev, ev ∈ (convertEnvelopes w (provJoin st (some t))
        (w.getPages ver i.url user pass).1).1 →
        ev = Event.convert u s → s = provJoin st (some t) := by
      intro ev hev heq
      obtain ⟨pg, hpg⟩ := convertEnvelopes_sources w _ _ ev hev
      rw [heq] at hpg
      simp only [Event.convert.injEq] at hpg
      exact hpg.2
    simp only [processCollection] at hmem
    cases hc : (convertEnvelopes w (provJoin st (some t))
        (w.getPages ver i.url user pass).1).2 with
    | some e2 =>
      rw [hc] at hmem
      rcases List.mem_append.mp hmem with hin | hin
      · exact hsrc _ hin rfl
      · simp at hin
    | none =>
      rw [hc] at hmem
      cases hp : (w.getPages ver i.url user pass).2 with
      | some e =>
        rw [hp] at hmem
        rcases List.mem_append.mp hmem with hin | hin
        · exact hsrc _ hin rfl
        · simp at hin
      | none =>
        rw [hp] at hmem
        exact hsrc _ hmem rfl

/-- C8 witness: the file `dir/file.tar.json` is labelled with its stem
`file.tar`, and the envelope retrieved from collection `T2` of server
`SRV` is labelled `SRV:T2`. -/
theorem stix_c8_witness :
    (processSpecifier wFiles "dir/file.tar.json").1.head? =
      some (Event.convert (StixUnit.file "X")
        (os_path_splitext_root (os_path_basename "dir/file.tar.json"))) ∧
    os_path_splitext_root (os_path_basename "dir/file.tar.json") = "file.tar" ∧
    "SRV:T2" = provJoin (some "SRV") (some "T2") :=
  ⟨stix_c8_provenance_labels.1 wFiles "dir/file.tar.json" "X" (by decide) rfl,
   by decide,
   stix_c8_provenance_labels.2.1 wNet "2.1" none none (some "SRV") "T2" ⟨"2", "u2"⟩
     (StixUnit.envelope "p2") "SRV:T2" (by decide)⟩

end StixToZeekIntel
